import Mathlib

/-!
Shallow embedding of the deepgemini streaming composition pipeline
(`app/clients/openai_compatible_composite.py` and the three provider
clients) and proofs about it.

Modelling conventions:
* A chat message (a Python dict with "role" and "content") is a `Message`.
* One line of a provider's line-delimited streaming body, as classified by
  the adapters' line loop, is a `RawLine`; JSON decoding itself is not
  re-implemented, only its observable outcome per line (decoded delta
  content plus optional usage total, or a decode failure).
* An async generator run is a `StreamRun`: the list of items it yielded, in
  order, plus whether it terminated by raising.  Items yielded before a
  raise are kept, matching generator semantics.
* The two stage coroutines communicate through `asyncio.Queue`s.  Each
  stage pushes items in program order, so a stage's pushes are modelled as
  the list of `QItem`s it produces; an arrival order of the shared output
  queue is any interleaving (`Interleave`) of the two stages' push lists.
* `process_openai` can only push after `reasoning_queue.get()` returns,
  which happens after `process_deepseek` has pushed all of its data chunks,
  so in the end-to-end function the canonical arrival order
  "all deepseek items, then all openai items" is used; the composer
  theorems are proved for every interleaving, which covers the real
  schedules (only the position of the deepseek sentinel can differ, and
  sentinels are dropped).
* The serialized SSE bytes "data: ...json...\n\n" of a chunk are modelled
  by the structured `OutEvent.data`, and "data: [DONE]\n\n" by
  `OutEvent.done`; the JSON serialization is injective on the fields kept
  here, and the terminal marker is unambiguous, so this abstraction is
  faithful.
-/

namespace DeepGemini

/-- A chat message: a dict with a "role" and a "content" entry. -/
structure Message where
  role : String
  content : String
  deriving DecidableEq, Repr

/-- One line of a provider streaming body after `.strip()`, as seen by the
adapters' line loops (`deepseek_client.py` 83-107,
`openai_compatible_client.py` 66-79):
`blank` is an empty line, `doneMarker` is the literal "data: [DONE]" line,
`nonData` is a line not starting with "data: ", `malformed` is a
"data: " line whose JSON fails to decode (json.JSONDecodeError), and
`payload content usage` is a decoded line whose delta carries `content`
(defaulting to the empty string) and, when a truthy usage object is
present, the value `usage.get("total_tokens", 0)`. -/
inductive RawLine where
  | blank
  | doneMarker
  | nonData
  | malformed
  | payload (content : String) (usage : Option Nat)
  deriving DecidableEq, Repr

/-- The observable outcome of running an async generator to its end: the
items it yielded in order, and whether it terminated by raising instead of
returning.  On a transport or non-200-status failure the adapters log and
re-raise, so `failed := true` covers those; `items` are the increments
yielded before the failure point. -/
structure StreamRun (α : Type) where
  items : List α
  failed : Bool
  deriving DecidableEq, Repr

/-- The delta chunk record built by `process_deepseek` / `process_openai`
(`openai_compatible_composite.py` 103-118 and 175-190): id, created
timestamp, model label, and the delta's reasoning_content and content
fields. -/
structure DeltaChunk where
  id : String
  created : Nat
  model : String
  reasoning_content : String
  content : String
  deriving DecidableEq, Repr

/-- An item of the shared `output_queue`: either the serialized bytes of a
data chunk, or the end-of-stage sentinel `None`. -/
inductive QItem where
  | chunk (c : DeltaChunk)
  | sentinel
  deriving DecidableEq, Repr

/-- An event yielded to the caller of `chat_completions_with_stream`:
either a data event (the "data: ...json..." bytes of a chunk) or the
terminal marker (the "data: [DONE]" bytes). -/
inductive OutEvent where
  | data (c : DeltaChunk)
  | done
  deriving DecidableEq, Repr

/-- Which summarizer client class the composite constructed. -/
inductive ClientKind where
  | geminiNew
  | openaiCompat
  deriving DecidableEq, Repr

/-- The composite's instance state set up by
`OpenAICompatibleComposite.__init__` (lines 24-46). -/
structure CompositeState where
  deepseek_tokens : Nat
  gemini_tokens : Nat
  openai_client : ClientKind
  is_origin_reasoning : Bool
  deriving DecidableEq, Repr

/-- `arr` is an order-preserving merge of the two producers' push
sequences: the arrival orders the shared queue can expose. -/
inductive Interleave {α : Type} : List α → List α → List α → Prop
  | nil : Interleave [] [] []
  | left {x : α} {xs ys zs : List α} :
      Interleave xs ys zs → Interleave (x :: xs) ys (x :: zs)
  | right {y : α} {xs ys zs : List α} :
      Interleave xs ys zs → Interleave xs (y :: ys) (y :: zs)

/-- The usage total carried by a line, if any (`deepseek_client.py` 95-98:
a truthy usage object overwrites token_count with its total_tokens). -/
def usageOf : RawLine → Option Nat
  | RawLine.payload _ u => u
  | _ => none

/-- `DeepSeekClient.stream_chat`, per-line yield (lines 88-107): only a
decoded "data: " line with non-empty delta content yields an increment; in
origin-reasoning mode it is tagged "reasoning", otherwise "content".
Blank lines, the "[DONE]" line, non-data lines and malformed lines yield
nothing. -/
def DeepSeekClient.lineInc (is_origin_reasoning : Bool) : RawLine → Option (String × String)
  | RawLine.payload c _ =>
      if c = "" then none
      else if is_origin_reasoning then some ("reasoning", c)
      else some ("content", c)
  | _ => none

/-- `DeepSeekClient.stream_chat` (lines 36-115) as a generator run over the
received body lines.  `failMidway := true` models the call raising (non-200
status, or a transport error after the given lines were processed); in that
case the trailing origin-mode ("content", "") signal (lines 109-111) is
never reached and the exception propagates (lines 113-115). -/
def DeepSeekClient.stream_chat (lines : List RawLine) (is_origin_reasoning : Bool)
    (failMidway : Bool) : StreamRun (String × String) :=
  { items := lines.filterMap (DeepSeekClient.lineInc is_origin_reasoning) ++
      (if failMidway then []
       else if is_origin_reasoning then [("content", "")] else []),
    failed := failMidway }

/-- Trace of `DeepSeekClient.token_count` after each processed line
(lines 94-98), starting from the value `tc`: a line with a truthy usage
object overwrites the counter with that usage's total_tokens, any other
line leaves it unchanged. -/
def DeepSeekClient.tokenTrace (tc : Nat) : List RawLine → List Nat
  | [] => []
  | l :: ls =>
      let tc2 := (usageOf l).getD tc
      tc2 :: DeepSeekClient.tokenTrace tc2 ls

/-- The chain-of-thought rewrite `DeepSeekClient.stream_chat` applies to
the last user message (line 59). -/
def DeepSeekClient.cotPrompt (c : String) : String :=
  "请用思维链（Chain of Thought）的方式分析以下问题，一步一步地思考：\n\n问题：" ++ c ++ "\n\n思考过程："

/-- `DeepSeekClient.stream_chat` lines 56-59: in origin-reasoning mode,
when the message list is non-empty and its last message has role "user",
the client rewrites that message's content *in place*.  The message dicts
are shared between the composite's `messages` list and the copy
`process_openai` makes later, and the rewrite always runs before the
reasoning trace is published, so `process_openai` observes the rewritten
list, modelled by this function. -/
def DeepSeekClient.mutateMessages (is_origin_reasoning : Bool)
    (messages : List Message) : List Message :=
  match messages.getLast? with
  | none => messages
  | some m =>
      if is_origin_reasoning ∧ m.role = "user" then
        messages.dropLast ++ [{ m with content := DeepSeekClient.cotPrompt m.content }]
      else messages

/-- `OpenAICompatibleClient.stream_chat`, per-line yield (lines 66-79):
same line protocol as the DeepSeek client but untagged, yielding only
non-empty delta content. -/
def OpenAICompatibleClient.lineInc : RawLine → Option String
  | RawLine.payload c _ => if c = "" then none else some c
  | _ => none

/-- `OpenAICompatibleClient.stream_chat` (lines 22-83) as a generator run
over the received body lines; `failMidway` as for the DeepSeek client. -/
def OpenAICompatibleClient.stream_chat (lines : List RawLine) (failMidway : Bool) :
    StreamRun String :=
  { items := lines.filterMap OpenAICompatibleClient.lineInc, failed := failMidway }

/-- `GeminiClientNew.process_stream` (gemini_client_new.py 75-82): running
token estimate, one entry per streamed chunk bearing a text attribute
(`none` models a chunk without one); each such chunk adds
len(text) // 3 + 1 to the running total, which is written to
`token_count`. -/
def GeminiClientNew.estimateTrace (total : Nat) : List (Option String) → List Nat
  | [] => []
  | none :: cs => GeminiClientNew.estimateTrace total cs
  | some t :: cs =>
      let total2 := total + (t.length / 3 + 1)
      total2 :: GeminiClientNew.estimateTrace total2 cs

/-- Trace of `GeminiClientNew.token_count` over one `process_stream` run
(lines 75-87): the per-chunk estimates, then, when the response exposes a
usage object with total_tokens, a final overwrite with that value. -/
def GeminiClientNew.tokenTrace (chunks : List (Option String))
    (finalUsage : Option Nat) : List Nat :=
  GeminiClientNew.estimateTrace 0 chunks ++ finalUsage.toList

/-- `OpenAICompatibleComposite.__init__` (lines 15-46): both token counters
start at zero, and the summarizer client is `GeminiClientNew` exactly when
the string "gemini" occurs in `openai_api_url` (Python's substring test
`"gemini" in openai_api_url`), else the generic client. -/
def OpenAICompatibleComposite.init (openai_api_url : String)
    (is_origin_reasoning : Bool) : CompositeState :=
  { deepseek_tokens := 0,
    gemini_tokens := 0,
    openai_client :=
      if "gemini".data <:+: openai_api_url.data then ClientKind.geminiNew
      else ClientKind.openaiCompat,
    is_origin_reasoning := is_origin_reasoning }

/-- The fixed fallback string substituted for an unavailable reasoning
trace (`openai_compatible_composite.py` line 145). -/
def placeholderTrace : String := "获取推理内容失败"

/-- The instruction block `process_openai` builds around the reasoning
trace (lines 149-151; a triple-quoted f-string, kept verbatim including
its leading newline and indentation). -/
def combined_content (reasoning : String) : String :=
  "\n                Here\x27s my another model\x27s reasoning process:\n" ++ reasoning ++
  "\n\n\n                Based on this reasoning, please provide a comprehensive and detailed response. Your answer should be thorough and complete, covering all aspects of the question. Don\x27t be too brief - aim for a substantial explanation that fully addresses the query:"

/-- The content written into the last user message before calling the
summarizer (line 164). -/
def fixed_content (original_content reasoning : String) : String :=
  "Here\x27s my original input:\n" ++ original_content ++ "\n\n" ++ combined_content reasoning

/-- The chunk `process_deepseek` pushes for one reasoning increment
(lines 103-121). -/
def mkReasoningChunk (chat_id : String) (created : Nat) (deepseek_model content : String) :
    DeltaChunk :=
  { id := chat_id, created := created, model := deepseek_model,
    reasoning_content := content, content := "" }

/-- The chunk `process_openai` pushes for one summarizer increment
(lines 175-193). -/
def mkContentChunk (chat_id : String) (created : Nat) (target_model content : String) :
    DeltaChunk :=
  { id := chat_id, created := created, model := target_model,
    reasoning_content := "", content := content }

/-- The `async for` loop body of `process_deepseek` (lines 95-128) over the
reasoner increments, with `acc` the accumulated `reasoning_content` list.
Returns the data items pushed to the output queue, the traces pushed to the
reasoning queue, and whether the loop exited via `break` on a "content"
increment (in which case the rest of the increment sequence is never
consumed). -/
def pdLoop (chat_id : String) (created : Nat) (deepseek_model : String) :
    List (String × String) → List String → List QItem × List String × Bool
  | [], _ => ([], [], false)
  | (t, c) :: rest, acc =>
      if t = "reasoning" then
        let r := pdLoop chat_id created deepseek_model rest (acc ++ [c])
        (QItem.chunk (mkReasoningChunk chat_id created deepseek_model c) :: r.1, r.2.1, r.2.2)
      else if t = "content" then
        ([], [String.join acc], true)
      else
        pdLoop chat_id created deepseek_model rest acc

/-- `process_deepseek` (lines 92-134): run the loop; if it did not break on
a "content" increment and the adapter raised, push the empty trace (except
branch, line 131); in every case finish by pushing the end-of-stage
sentinel (line 134).  First component: output-queue pushes; second:
traces pushed to the reasoning queue. -/
def process_deepseek (chat_id : String) (created : Nat) (deepseek_model : String)
    (run : StreamRun (String × String)) : List QItem × List String :=
  let r := pdLoop chat_id created deepseek_model run.items []
  let published := if r.2.2 then r.2.1 else if run.failed then [""] else []
  (r.1 ++ [QItem.sentinel], published)

/-- The observable outcome of `process_openai` (lines 136-199).
`blocked` means `reasoning_queue.get()` never returned (nothing was
published), in which case the coroutine pushes nothing, not even its
sentinel.  `adapterMessages` is the message list passed to the summarizer's
`stream_chat`, or `none` when no call is made (validation failed before any
network call). -/
structure OAResult where
  blocked : Bool
  qitems : List QItem
  adapterMessages : Option (List Message)
  deriving DecidableEq, Repr

/-- `process_openai` (lines 136-199): wait for the first published trace;
substitute the fixed placeholder for an empty trace (lines 143-145); check
the message list is non-empty and its last message has role "user"
(lines 153-160), raising ValueError otherwise (caught at line 194, sentinel
still pushed by the `finally` at 196-199); otherwise rewrite the last
message content (lines 162-165), drive the summarizer and push one content
chunk per increment, then the sentinel.  `messages` here is the list as
shared with the DeepSeek client, i.e. after its in-place rewrite. -/
def process_openai (chat_id : String) (created : Nat) (target_model : String)
    (publishedTraces : List String) (messages : List Message)
    (summarizerItems : List String) : OAResult :=
  match publishedTraces with
  | [] => { blocked := true, qitems := [], adapterMessages := none }
  | reasoning0 :: _ =>
      let reasoning := if reasoning0 = "" then placeholderTrace else reasoning0
      match messages.getLast? with
      | none => { blocked := false, qitems := [QItem.sentinel], adapterMessages := none }
      | some last =>
          if last.role ≠ "user" then
            { blocked := false, qitems := [QItem.sentinel], adapterMessages := none }
          else
            { blocked := false,
              qitems := (summarizerItems.map (fun c =>
                QItem.chunk (mkContentChunk chat_id created target_model c))) ++ [QItem.sentinel],
              adapterMessages := some (messages.dropLast ++
                [{ last with content := fixed_content last.content reasoning }]) }

/-- The composer loop of `chat_completions_with_stream` (lines 206-215):
repeatedly take from the output queue; a `None` sentinel bumps
`tasks_done`, a data item is forwarded verbatim; once two sentinels have
been taken, emit the terminal "data: [DONE]" marker.  The boolean is
`true` when the terminal marker was actually reached; an exhausted arrival
list with fewer than two sentinels models the loop blocked forever on
`output_queue.get()`. -/
def composeFrom : Nat → List QItem → List OutEvent × Bool
  | tasks_done, items =>
      if 2 ≤ tasks_done then ([OutEvent.done], true)
      else
        match items with
        | [] => ([], false)
        | QItem.sentinel :: rest => composeFrom (tasks_done + 1) rest
        | QItem.chunk c :: rest =>
            let r := composeFrom tasks_done rest
            (OutEvent.data c :: r.1, r.2)

/-- `chat_completions_with_stream` (lines 48-218) with the two adapter runs
as inputs: spawn both stages, merge their queue pushes (canonical arrival
order: all deepseek pushes, then all openai pushes; see the module
comment), run the composer.  Returns the events the caller receives and
whether the stream terminated (reached the "[DONE]" marker). -/
def chat_completions_with_stream (chat_id : String) (created : Nat)
    (deepseek_model target_model : String) (messages : List Message)
    (is_origin_reasoning : Bool) (reasonerRun : StreamRun (String × String))
    (summarizerItems : List String) : List OutEvent × Bool :=
  let ds := process_deepseek chat_id created deepseek_model reasonerRun
  let oa := process_openai chat_id created target_model ds.2
    (DeepSeekClient.mutateMessages is_origin_reasoning messages) summarizerItems
  composeFrom 0 (ds.1 ++ oa.qitems)

/-- The pipeline composed with the actual DeepSeek adapter: the reasoner
run is `DeepSeekClient.stream_chat` over the received body lines. -/
def chat_completions_from_lines (chat_id : String) (created : Nat)
    (deepseek_model target_model : String) (messages : List Message)
    (is_origin_reasoning : Bool) (lines : List RawLine) (failMidway : Bool)
    (summarizerItems : List String) : List OutEvent × Bool :=
  chat_completions_with_stream chat_id created deepseek_model target_model messages
    is_origin_reasoning (DeepSeekClient.stream_chat lines is_origin_reasoning failMidway)
    summarizerItems

/-- Observation helper: the chunk carried by a queue item, if any. -/
def qData : QItem → Option DeltaChunk
  | QItem.chunk c => some c
  | QItem.sentinel => none

/-- Observation helper: the texts of the reasoning increments preceding the
first "content" increment — exactly the increments `process_deepseek`
forwards before its loop breaks. -/
def reasoningPrefixTexts : List (String × String) → List String
  | [] => []
  | (t, c) :: rest =>
      if t = "reasoning" then c :: reasoningPrefixTexts rest
      else if t = "content" then []
      else reasoningPrefixTexts rest

end DeepGemini

namespace DeepGemini

/-! ## Helper lemmas -/

theorem mem_of_getLast?_eq {α : Type} {l : List α} {x : α} (h : l.getLast? = some x) :
    x ∈ l := by
  obtain ⟨hne, hx⟩ := List.mem_getLast?_eq_getLast (l := l) (x := x) (by simp [Option.mem_def, h])
  exact hx ▸ List.getLast_mem hne

theorem interleave_count {α : Type} [DecidableEq α] (a : α) {xs ys zs : List α}
    (h : Interleave xs ys zs) : zs.count a = xs.count a + ys.count a := by
  induction h with
  | nil => rfl
  | left _ ih => simp only [List.count_cons, ih]; split <;> omega
  | right _ ih => simp only [List.count_cons, ih]; split <;> omega

theorem interleave_getLast {α : Type} {xs ys zs : List α} (h : Interleave xs ys zs) :
    zs ≠ [] →
      (xs ≠ [] ∧ zs.getLast? = xs.getLast?) ∨ (ys ≠ [] ∧ zs.getLast? = ys.getLast?) := by
  induction h with
  | nil => intro hne; exact absurd rfl hne
  | @left x xs ys zs h ih =>
      intro _
      by_cases hz : zs = []
      · subst hz
        cases h
        exact Or.inl ⟨List.cons_ne_nil x [], rfl⟩
      · have hcons : (x :: zs).getLast? = zs.getLast? := by
          cases zs with
          | nil => exact absurd rfl hz
          | cons b t => exact List.getLast?_cons_cons
        rcases ih hz with ⟨hxne, hx⟩ | ⟨hyne, hy⟩
        · left
          refine ⟨List.cons_ne_nil x xs, ?_⟩
          rw [hcons, hx]
          cases xs with
          | nil => exact absurd rfl hxne
          | cons b t => exact (List.getLast?_cons_cons).symm
        · exact Or.inr ⟨hyne, by rw [hcons, hy]⟩
  | @right y xs ys zs h ih =>
      intro _
      by_cases hz : zs = []
      · subst hz
        cases h
        exact Or.inr ⟨List.cons_ne_nil y [], rfl⟩
      · have hcons : (y :: zs).getLast? = zs.getLast? := by
          cases zs with
          | nil => exact absurd rfl hz
          | cons b t => exact List.getLast?_cons_cons
        rcases ih hz with ⟨hxne, hx⟩ | ⟨hyne, hy⟩
        · exact Or.inl ⟨hxne, by rw [hcons, hx]⟩
        · right
          refine ⟨List.cons_ne_nil y ys, ?_⟩
          rw [hcons, hy]
          cases ys with
          | nil => exact absurd rfl hyne
          | cons b t => exact (List.getLast?_cons_cons).symm

theorem composeFrom_two {n : Nat} (items : List QItem) (h : 2 ≤ n) :
    composeFrom n items = ([OutEvent.done], true) := by
  rw [composeFrom.eq_def]
  simp [h]

theorem composeFrom_sentinel_cons {n : Nat} (rest : List QItem) (h : n < 2) :
    composeFrom n (QItem.sentinel :: rest) = composeFrom (n + 1) rest := by
  rw [composeFrom]
  simp [Nat.not_le.mpr h]

theorem composeFrom_chunk_cons {n : Nat} (c : DeltaChunk) (rest : List QItem) (h : n < 2) :
    composeFrom n (QItem.chunk c :: rest) =
      (OutEvent.data c :: (composeFrom n rest).1, (composeFrom n rest).2) := by
  rw [composeFrom]
  simp [Nat.not_le.mpr h]

theorem composeFrom_spec :
    ∀ (items : List QItem) (n : Nat),
      n + items.count QItem.sentinel = 2 →
      (items = [] ∨ items.getLast? = some QItem.sentinel) →
      composeFrom n items =
        (((items.filterMap qData).map OutEvent.data) ++ [OutEvent.done], true) := by
  intro items
  induction items with
  | nil =>
      intro n hc _
      have hn : n = 2 := by simpa using hc
      subst hn
      simp [composeFrom_two, qData]
  | cons i rest ih =>
      intro n hc hl
      have hlast : (i :: rest).getLast? = some QItem.sentinel := by
        rcases hl with h | h
        · exact absurd h (by simp)
        · exact h
      cases i with
      | sentinel =>
          have hn : n < 2 := by
            have h1 : (QItem.sentinel :: rest).count QItem.sentinel
                = rest.count QItem.sentinel + 1 := by simp [List.count_cons]
            omega
          rw [composeFrom_sentinel_cons rest hn]
          have hc' : (n + 1) + rest.count QItem.sentinel = 2 := by
            have h1 : (QItem.sentinel :: rest).count QItem.sentinel
                = rest.count QItem.sentinel + 1 := by simp [List.count_cons]
            omega
          have hl' : rest = [] ∨ rest.getLast? = some QItem.sentinel := by
            cases rest with
            | nil => exact Or.inl rfl
            | cons b t => exact Or.inr (List.getLast?_cons_cons ▸ hlast)
          rw [ih n.succ hc' hl']
          simp [qData, List.filterMap_cons]
      | chunk c =>
          have hrest_mem : QItem.sentinel ∈ rest := by
            have hmem := mem_of_getLast?_eq hlast
            simpa using hmem
          have hpos : rest.count QItem.sentinel ≠ 0 := by
            rw [Ne, List.count_eq_zero]
            exact fun h => h hrest_mem
          have hc0 : (QItem.chunk c :: rest).count QItem.sentinel
              = rest.count QItem.sentinel := by simp [List.count_cons]
          have hn : n < 2 := by omega
          rw [composeFrom_chunk_cons c rest hn]
          have hrest_ne : rest ≠ [] := by
            intro h; subst h; simp at hrest_mem
          have hl' : rest = [] ∨ rest.getLast? = some QItem.sentinel := by
            cases rest with
            | nil => exact absurd rfl hrest_ne
            | cons b t => exact Or.inr (List.getLast?_cons_cons ▸ hlast)
          rw [ih n (by omega) hl']
          simp [qData, List.filterMap_cons]

theorem pdLoop_items (cid : String) (cr : Nat) (dm : String) :
    ∀ (incs : List (String × String)) (acc : List String),
      (pdLoop cid cr dm incs acc).1 =
        (reasoningPrefixTexts incs).map (fun c => QItem.chunk (mkReasoningChunk cid cr dm c)) := by
  intro incs
  induction incs with
  | nil => intro acc; rfl
  | cons i rest ih =>
      intro acc
      obtain ⟨t, c⟩ := i
      by_cases h1 : t = "reasoning"
      · simp [pdLoop, reasoningPrefixTexts, h1, ih]
      · by_cases h2 : t = "content" <;>
          simp [pdLoop, reasoningPrefixTexts, h1, h2, ih]

theorem pdLoop_broke (cid : String) (cr : Nat) (dm : String) :
    ∀ (incs : List (String × String)) (acc : List String),
      (pdLoop cid cr dm incs acc).2.2 = incs.any (fun i => i.1 == "content") := by
  intro incs
  induction incs with
  | nil => intro acc; rfl
  | cons i rest ih =>
      intro acc
      obtain ⟨t, c⟩ := i
      by_cases h1 : t = "reasoning"
      · have h2 : (t == "content") = false := by
          subst h1; rfl
        simp [pdLoop, h1, ih, h2]
      · by_cases h2 : t = "content"
        · simp [pdLoop, h1, h2]
        · have h3 : (t == "content") = false := by
            exact beq_false_of_ne h2
          simp [pdLoop, h1, h2, ih, h3]

theorem pdLoop_pub (cid : String) (cr : Nat) (dm : String) :
    ∀ (incs : List (String × String)) (acc : List String),
      (pdLoop cid cr dm incs acc).2.1 =
        if (pdLoop cid cr dm incs acc).2.2 then
          [String.join (acc ++ reasoningPrefixTexts incs)]
        else [] := by
  intro incs
  induction incs with
  | nil => intro acc; rfl
  | cons i rest ih =>
      intro acc
      obtain ⟨t, c⟩ := i
      by_cases h1 : t = "reasoning"
      · simp only [pdLoop, reasoningPrefixTexts, h1, if_pos rfl, ih]
        by_cases hb : (pdLoop cid cr dm rest (acc ++ [c])).2.2 <;>
          simp [hb, List.append_assoc]
      · by_cases h2 : t = "content"
        · simp [pdLoop, reasoningPrefixTexts, h1, h2]
        · simp [pdLoop, reasoningPrefixTexts, h1, h2, ih]

theorem process_deepseek_items (cid : String) (cr : Nat) (dm : String)
    (run : StreamRun (String × String)) :
    (process_deepseek cid cr dm run).1 =
      ((reasoningPrefixTexts run.items).map
        (fun c => QItem.chunk (mkReasoningChunk cid cr dm c))) ++ [QItem.sentinel] := by
  simp [process_deepseek, pdLoop_items]

theorem process_openai_qitems (cid : String) (cr : Nat) (tm : String)
    (pub : List String) (msgs : List Message) (sums : List String) (h : pub ≠ []) :
    (process_openai cid cr tm pub msgs sums).blocked = false ∧
    ∃ B : List String,
      (process_openai cid cr tm pub msgs sums).qitems =
        (B.map fun c => QItem.chunk (mkContentChunk cid cr tm c)) ++ [QItem.sentinel] := by
  cases pub with
  | nil => exact absurd rfl h
  | cons p rest =>
      cases hm : msgs.getLast? with
      | none =>
          refine ⟨?_, [], ?_⟩ <;> simp [process_openai, hm]
      | some m =>
          by_cases hr : m.role = "user"
          · refine ⟨?_, sums, ?_⟩ <;> simp [process_openai, hm, hr]
          · refine ⟨?_, [], ?_⟩ <;> simp [process_openai, hm, hr]

end DeepGemini

namespace DeepGemini

theorem DeepSeekClient.lineInc_tag {b : Bool} {l : RawLine} {i : String × String}
    (h : DeepSeekClient.lineInc b l = some i) :
    i.1 = (if b then "reasoning" else "content") ∧ i.2 ≠ "" := by
  cases l with
  | payload c u =>
      by_cases hc : c = ""
      · simp [DeepSeekClient.lineInc, hc] at h
      · cases b <;> simp [DeepSeekClient.lineInc, hc] at h <;> simp [← h, hc]
  | blank => simp [DeepSeekClient.lineInc] at h
  | doneMarker => simp [DeepSeekClient.lineInc] at h
  | nonData => simp [DeepSeekClient.lineInc] at h
  | malformed => simp [DeepSeekClient.lineInc] at h

theorem ds_true_mode_no_content (lines : List RawLine) :
    (lines.filterMap (DeepSeekClient.lineInc true)).any (fun i => i.1 == "content") = false := by
  rw [List.any_eq_false]
  intro i hi
  obtain ⟨l, _, hsome⟩ := List.mem_filterMap.mp hi
  have htag := (DeepSeekClient.lineInc_tag hsome).1
  simp only [if_pos rfl] at htag
  simp [htag]

theorem ds_failed_publishes_empty (cid : String) (cr : Nat) (dm : String)
    (lines : List RawLine) (b : Bool) :
    (process_deepseek cid cr dm (DeepSeekClient.stream_chat lines b true)).2 = [""] := by
  cases b
  · cases hitems : lines.filterMap (DeepSeekClient.lineInc false) with
    | nil =>
        simp [process_deepseek, DeepSeekClient.stream_chat, hitems, pdLoop]
    | cons i rest =>
        have hmem : i ∈ lines.filterMap (DeepSeekClient.lineInc false) := by
          rw [hitems]; exact List.mem_cons_self i rest
        obtain ⟨l, _, hsome⟩ := List.mem_filterMap.mp hmem
        have htag := (DeepSeekClient.lineInc_tag hsome).1
        simp only [Bool.false_eq_true, if_false] at htag
        obtain ⟨t, c⟩ := i
        simp only at htag
        subst htag
        simp [process_deepseek, DeepSeekClient.stream_chat, hitems, pdLoop, String.join]
  · have hb := ds_true_mode_no_content lines
    have hbroke := pdLoop_broke cid cr dm
      ((DeepSeekClient.stream_chat lines true true).items) []
    have hitems : (DeepSeekClient.stream_chat lines true true).items
        = lines.filterMap (DeepSeekClient.lineInc true) := by
      simp [DeepSeekClient.stream_chat]
    rw [hitems] at hbroke
    rw [hb] at hbroke
    simp [process_deepseek, hbroke, hitems, DeepSeekClient.stream_chat]

theorem mutateMessages_concat (b : Bool) (pre : List Message) (m : Message) :
    DeepSeekClient.mutateMessages b (pre ++ [m]) =
      pre ++ [if b ∧ m.role = "user" then
        { m with content := DeepSeekClient.cotPrompt m.content } else m] := by
  unfold DeepSeekClient.mutateMessages
  rw [List.getLast?_concat]
  by_cases h : b ∧ m.role = "user"
  · simp [h, List.dropLast_concat]
  · simp [h]

theorem mutateMessages_invalid (b : Bool) (msgs : List Message)
    (h : ∀ m, msgs.getLast? = some m → m.role ≠ "user") :
    DeepSeekClient.mutateMessages b msgs = msgs := by
  unfold DeepSeekClient.mutateMessages
  cases hm : msgs.getLast? with
  | none => rfl
  | some m => simp [h m hm]

theorem mutateMessages_getLast_role (b : Bool) (msgs : List Message) :
    ((DeepSeekClient.mutateMessages b msgs).getLast?).map Message.role
      = (msgs.getLast?).map Message.role := by
  unfold DeepSeekClient.mutateMessages
  cases hm : msgs.getLast? with
  | none => simp [hm]
  | some m =>
      by_cases h : b ∧ m.role = "user"
      · simp [h, hm, List.getLast?_concat, h.2]
      · simp [h, hm]

end DeepGemini

namespace DeepGemini

/-! ## Claim theorems -/

/-- C1 (amended): provided the Reasoning-Capture stage publishes a trace
(which the code guarantees whenever is_origin_reasoning is true, or the
reasoner fails, or yields a content increment — but not when
is_origin_reasoning is false and the reasoner completes without a content
increment), then for every arrival order of the two stages' queue pushes
the composer forwards the data items verbatim, never forwards a sentinel,
and emits the terminal marker exactly once, at the very end, after taking
exactly the two end-of-stage sentinels. -/
theorem c1_terminal_marker (cid : String) (cr : Nat) (dm tm : String)
    (messages : List Message) (isOrigin : Bool) (run : StreamRun (String × String))
    (sums : List String) (arr : List QItem)
    (hpub : (process_deepseek cid cr dm run).2 ≠ [])
    (hint : Interleave (process_deepseek cid cr dm run).1
      (process_openai cid cr tm (process_deepseek cid cr dm run).2
        (DeepSeekClient.mutateMessages isOrigin messages) sums).qitems arr) :
    composeFrom 0 arr = (((arr.filterMap qData).map OutEvent.data) ++ [OutEvent.done], true)
    ∧ (composeFrom 0 arr).1.count OutEvent.done = 1 := by
  obtain ⟨hb, B, hB⟩ := process_openai_qitems cid cr tm
    (process_deepseek cid cr dm run).2
    (DeepSeekClient.mutateMessages isOrigin messages) sums hpub
  have hds := process_deepseek_items cid cr dm run
  have cds : (process_deepseek cid cr dm run).1.count QItem.sentinel = 1 := by
    rw [hds]
    rw [List.count_append]
    have h0 : ((reasoningPrefixTexts run.items).map
        (fun c => QItem.chunk (mkReasoningChunk cid cr dm c))).count QItem.sentinel = 0 := by
      rw [List.count_eq_zero]
      simp [List.mem_map]
    rw [h0]
    rfl
  have coa : (process_openai cid cr tm (process_deepseek cid cr dm run).2
      (DeepSeekClient.mutateMessages isOrigin messages) sums).qitems.count QItem.sentinel = 1 := by
    rw [hB]
    rw [List.count_append]
    have h0 : ((B.map fun c => QItem.chunk (mkContentChunk cid cr tm c))).count
        QItem.sentinel = 0 := by
      rw [List.count_eq_zero]
      simp [List.mem_map]
    rw [h0]
    rfl
  have carr : arr.count QItem.sentinel = 2 := by
    rw [interleave_count QItem.sentinel hint, cds, coa]
  have harrne : arr ≠ [] := by
    intro h
    subst h
    simp at carr
  have hlast : arr.getLast? = some QItem.sentinel := by
    rcases interleave_getLast hint harrne with ⟨_, he⟩ | ⟨_, he⟩
    · rw [he, hds]
      exact List.getLast?_concat _
    · rw [he, hB]
      exact List.getLast?_concat _
  have hmain := composeFrom_spec arr 0 (by omega) (Or.inr hlast)
  refine ⟨hmain, ?_⟩
  rw [hmain]
  rw [List.count_append]
  have h0 : ((arr.filterMap qData).map OutEvent.data).count OutEvent.done = 0 := by
    rw [List.count_eq_zero]
    simp [List.mem_map]
  rw [h0]
  rfl

/-- Witness for c1_terminal_marker: a concrete request (reasoner
immediately signals end of reasoning, summarizer yields nothing) with the
arrival order in which both sentinels arrive back to back. -/
theorem c1_terminal_marker_witness :
    composeFrom 0 [QItem.sentinel, QItem.sentinel] =
      ((([QItem.sentinel, QItem.sentinel].filterMap qData).map OutEvent.data)
        ++ [OutEvent.done], true)
    ∧ (composeFrom 0 [QItem.sentinel, QItem.sentinel]).1.count OutEvent.done = 1 :=
  c1_terminal_marker "c" 0 "d" "t" [⟨"user", "hi"⟩] true ⟨[("content", "")], false⟩ []
    [QItem.sentinel, QItem.sentinel] (by decide)
    (Interleave.left (Interleave.right Interleave.nil))

/-- C1 counterexample for the claim as stated: with is_origin_reasoning
false and a reasoner stream that completes without yielding any increment,
no trace is published, the Summarization stage never pushes its sentinel,
and the caller's stream blocks forever without ever emitting the terminal
marker — the output does not end with a terminal marker. -/
theorem c1_hang_counterexample :
    (chat_completions_with_stream "c" 0 "d" "t" [] false ⟨[], false⟩ []).2 = false
    ∧ (chat_completions_with_stream "c" 0 "d" "t" [] false
        ⟨[], false⟩ []).1.count OutEvent.done = 0 := by
  decide

/-- C7: the concrete scenario — reasoner yields four reasoning increments
then one empty content increment, summarizer yields four increments; the
output is exactly four reasoning-phase chunks, then four content-phase
chunks, then the terminal marker: nine events. -/
theorem c7_scenario :
    chat_completions_with_stream "chatcmpl-0" 0 "deepseek-reasoner" "gemini-2.0-flash"
      [⟨"user", "What is 2+2?"⟩] true
      ⟨[("reasoning", "Let\x27s"), ("reasoning", "think"), ("reasoning", "step by step:"),
        ("reasoning", "2+2=4"), ("content", "")], false⟩
      ["The", "answer", "is", "4."] =
    ([OutEvent.data (mkReasoningChunk "chatcmpl-0" 0 "deepseek-reasoner" "Let\x27s"),
      OutEvent.data (mkReasoningChunk "chatcmpl-0" 0 "deepseek-reasoner" "think"),
      OutEvent.data (mkReasoningChunk "chatcmpl-0" 0 "deepseek-reasoner" "step by step:"),
      OutEvent.data (mkReasoningChunk "chatcmpl-0" 0 "deepseek-reasoner" "2+2=4"),
      OutEvent.data (mkContentChunk "chatcmpl-0" 0 "gemini-2.0-flash" "The"),
      OutEvent.data (mkContentChunk "chatcmpl-0" 0 "gemini-2.0-flash" "answer"),
      OutEvent.data (mkContentChunk "chatcmpl-0" 0 "gemini-2.0-flash" "is"),
      OutEvent.data (mkContentChunk "chatcmpl-0" 0 "gemini-2.0-flash" "4."),
      OutEvent.done], true) := by
  decide

/-- C8: a malformed streamed payload line (JSON that fails to decode) is
skipped: both adapters yield exactly the same increment run with the
malformed line removed, so a decode error never aborts the increment
sequence, and consumption of the remaining lines continues. -/
theorem c8_decode_error_skipped (pre post : List RawLine) (isOrigin failMidway : Bool) :
    DeepSeekClient.stream_chat (pre ++ RawLine.malformed :: post) isOrigin failMidway
      = DeepSeekClient.stream_chat (pre ++ post) isOrigin failMidway
    ∧ OpenAICompatibleClient.stream_chat (pre ++ RawLine.malformed :: post) failMidway
      = OpenAICompatibleClient.stream_chat (pre ++ post) failMidway := by
  constructor
  · simp [DeepSeekClient.stream_chat, List.filterMap_append, List.filterMap_cons,
      DeepSeekClient.lineInc]
  · simp [OpenAICompatibleClient.stream_chat, List.filterMap_append, List.filterMap_cons,
      OpenAICompatibleClient.lineInc]

/-- C10: at composite construction the summarizer adapter is selected by
substring matching on openai_api_url: GeminiClientNew exactly when
"gemini" occurs as a substring, the generic OpenAI-compatible client for
every other value. -/
theorem c10_client_selection (url : String) (isOrigin : Bool) :
    ((OpenAICompatibleComposite.init url isOrigin).openai_client = ClientKind.geminiNew
      ↔ "gemini".data <:+: url.data)
    ∧ ((OpenAICompatibleComposite.init url isOrigin).openai_client = ClientKind.openaiCompat
      ↔ ¬ "gemini".data <:+: url.data) := by
  unfold OpenAICompatibleComposite.init
  by_cases h : "gemini".data <:+: url.data <;> simp [h]

end DeepGemini

namespace DeepGemini

theorem process_deepseek_pub_len (cid : String) (cr : Nat) (dm : String)
    (run : StreamRun (String × String)) :
    (process_deepseek cid cr dm run).2.length ≤ 1 := by
  unfold process_deepseek
  by_cases hb : (pdLoop cid cr dm run.items []).2.2
  · simp [hb, pdLoop_pub]
  · cases hf : run.failed <;> simp [hb, hf]

theorem ds_origin_publishes (cid : String) (cr : Nat) (dm : String) (lines : List RawLine) :
    (process_deepseek cid cr dm (DeepSeekClient.stream_chat lines true false)).2.length = 1 := by
  have hbroke : (pdLoop cid cr dm (DeepSeekClient.stream_chat lines true false).items []).2.2
      = true := by
    rw [pdLoop_broke]
    simp [DeepSeekClient.stream_chat, List.any_append]
  unfold process_deepseek
  simp [hbroke, pdLoop_pub]

theorem composeFrom_two_stages (A B : List QItem)
    (hA : QItem.sentinel ∉ A) (hB : QItem.sentinel ∉ B) :
    composeFrom 0 ((A ++ [QItem.sentinel]) ++ (B ++ [QItem.sentinel]))
      = (((A.filterMap qData ++ B.filterMap qData).map OutEvent.data)
          ++ [OutEvent.done], true) := by
  have hc : (0 : Nat) + ((A ++ [QItem.sentinel]) ++ (B ++ [QItem.sentinel])).count
      QItem.sentinel = 2 := by
    simp [List.count_append, List.count_eq_zero.mpr hA, List.count_eq_zero.mpr hB]
  have hl : ((A ++ [QItem.sentinel]) ++ (B ++ [QItem.sentinel])).getLast?
      = some QItem.sentinel := by
    have hne : B ++ [QItem.sentinel] ≠ [] := by simp
    rw [List.getLast?_append_of_ne_nil _ hne]
    exact List.getLast?_concat B
  have hmain := composeFrom_spec _ 0 hc (Or.inr hl)
  rw [hmain]
  simp [List.filterMap_append, qData]

theorem filterMap_qData_chunks {γ : Type} (g : γ → DeltaChunk) (l : List γ) :
    (l.map fun c => QItem.chunk (g c)).filterMap qData = l.map g := by
  induction l with
  | nil => rfl
  | cons a t ih => simp [qData, ih]

theorem process_openai_valid (cid : String) (cr : Nat) (tm : String) (p : String)
    (rest : List String) (msgs : List Message) (sums : List String) (m : Message)
    (hm : msgs.getLast? = some m) (hr : m.role = "user") :
    (process_openai cid cr tm (p :: rest) msgs sums).qitems =
      (sums.map fun c => QItem.chunk (mkContentChunk cid cr tm c)) ++ [QItem.sentinel] := by
  simp [process_openai, hm, hr]

theorem reasoningPrefixTexts_mem {l : List (String × String)} {c : String}
    (h : c ∈ reasoningPrefixTexts l) : ("reasoning", c) ∈ l := by
  induction l with
  | nil => simp [reasoningPrefixTexts] at h
  | cons i rest ih =>
      obtain ⟨t, d⟩ := i
      have hred : reasoningPrefixTexts ((t, d) :: rest)
          = if t = "reasoning" then d :: reasoningPrefixTexts rest
            else if t = "content" then [] else reasoningPrefixTexts rest := rfl
      rw [hred] at h
      by_cases h1 : t = "reasoning"
      · subst h1
        rw [if_pos rfl, List.mem_cons] at h
        rcases h with h | h
        · subst h
          exact List.mem_cons_self _ _
        · exact List.mem_cons_of_mem _ (ih h)
      · rw [if_neg h1] at h
        by_cases h2 : t = "content"
        · rw [if_pos h2] at h
          simp at h
        · rw [if_neg h2] at h
          exact List.mem_cons_of_mem _ (ih h)

theorem ds_reasoning_texts_ne_empty (lines : List RawLine) (b fm : Bool) {c : String}
    (h : c ∈ reasoningPrefixTexts (DeepSeekClient.stream_chat lines b fm).items) :
    c ≠ "" := by
  have hmem := reasoningPrefixTexts_mem h
  simp only [DeepSeekClient.stream_chat] at hmem
  rw [List.mem_append] at hmem
  rcases hmem with hmem | hmem
  · obtain ⟨l, _, hsome⟩ := List.mem_filterMap.mp hmem
    exact (DeepSeekClient.lineInc_tag hsome).2
  · cases fm <;> cases b <;> simp at hmem

/-- C2 (amended): the Reasoning-Capture stage publishes the trace at most
once, and exactly once on the first "content" increment (always reached in
origin-reasoning mode, whose adapter appends the ("content", "") signal on
normal completion) or on adapter failure (then the published trace is
empty); but publication on bare adapter completion does not exist in the
code: with is_origin_reasoning false and a normally-completing reasoner
stream with no increments, nothing is ever published. -/
theorem c2_trace_published_once (cid : String) (cr : Nat) (dm : String)
    (lines : List RawLine) (isOrigin failMidway : Bool) :
    (process_deepseek cid cr dm
        (DeepSeekClient.stream_chat lines isOrigin failMidway)).2.length ≤ 1
    ∧ (isOrigin = true →
        (process_deepseek cid cr dm
          (DeepSeekClient.stream_chat lines isOrigin failMidway)).2.length = 1)
    ∧ (failMidway = true →
        (process_deepseek cid cr dm
          (DeepSeekClient.stream_chat lines isOrigin failMidway)).2 = [""])
    ∧ (isOrigin = false → failMidway = false →
        (DeepSeekClient.stream_chat lines false false).items = [] →
        (process_deepseek cid cr dm
          (DeepSeekClient.stream_chat lines isOrigin failMidway)).2 = []) := by
  refine ⟨process_deepseek_pub_len cid cr dm _, ?_, ?_, ?_⟩
  · intro h1
    subst h1
    cases hf : failMidway
    · exact ds_origin_publishes cid cr dm lines
    · rw [ds_failed_publishes_empty cid cr dm lines true]
      rfl
  · intro h2
    subst h2
    exact ds_failed_publishes_empty cid cr dm lines isOrigin
  · intro h1 h2 hitems
    subst h1
    subst h2
    unfold process_deepseek
    rw [hitems]
    simp [pdLoop, DeepSeekClient.stream_chat]

/-- Witness for c2_trace_published_once: in origin-reasoning mode with one
payload line the trace is published exactly once. -/
theorem c2_trace_published_once_witness :
    (process_deepseek "c" 0 "d"
      (DeepSeekClient.stream_chat [RawLine.payload "x" none] true false)).2.length = 1 :=
  (c2_trace_published_once "c" 0 "d" [RawLine.payload "x" none] true false).2.1 rfl

/-- C2 counterexample for the claim as stated: with is_origin_reasoning
false and an empty provider stream the reasoner adapter completes normally
without any content increment, and nothing is ever published — the trace
is left unpublished (and the session hangs), contradicting publication
"on adapter completion". -/
theorem c2_unpublished_counterexample :
    (process_deepseek "c" 0 "d" (DeepSeekClient.stream_chat [] false false)).2 = []
    ∧ (chat_completions_from_lines "c" 0 "d" "t" [⟨"user", "q"⟩] false [] false []).2
        = false := by
  decide

/-- C3 (amended): provided the trace gets published and the last message
has role "user", the output is exactly: one reasoning-phase chunk, in
order, for each reasoning increment the reasoner yielded before its first
content increment (each with non-empty reasoning text), then one
content-phase chunk per summarizer increment, in order, then the terminal
marker.  (The reasoner's own "content" increments are consumed as the
end-of-reasoning signal and are not forwarded; in origin-reasoning mode
the only such increment is the final empty signal, so no substantive
increment is lost there.) -/
theorem c3_increment_framing (cid : String) (cr : Nat) (dm tm : String)
    (messages : List Message) (isOrigin failMidway : Bool) (lines : List RawLine)
    (sums : List String)
    (hpub : (process_deepseek cid cr dm
      (DeepSeekClient.stream_chat lines isOrigin failMidway)).2 ≠ [])
    (hlast : (messages.getLast?).map Message.role = some "user") :
    (chat_completions_from_lines cid cr dm tm messages isOrigin lines failMidway sums).1
      = ((reasoningPrefixTexts (DeepSeekClient.stream_chat lines isOrigin failMidway).items).map
          (fun c => OutEvent.data (mkReasoningChunk cid cr dm c)))
        ++ (sums.map (fun c => OutEvent.data (mkContentChunk cid cr tm c)))
        ++ [OutEvent.done]
    ∧ ∀ c ∈ reasoningPrefixTexts (DeepSeekClient.stream_chat lines isOrigin failMidway).items,
        c ≠ "" := by
  refine ⟨?_, fun c hc => ds_reasoning_texts_ne_empty lines isOrigin failMidway hc⟩
  have hmut := mutateMessages_getLast_role isOrigin messages
  rw [hlast] at hmut
  obtain ⟨m, hm, hrole⟩ := Option.map_eq_some'.mp hmut
  cases hpubeq : (process_deepseek cid cr dm
      (DeepSeekClient.stream_chat lines isOrigin failMidway)).2 with
  | nil => exact absurd hpubeq hpub
  | cons p rest =>
      show (chat_completions_with_stream cid cr dm tm messages isOrigin
        (DeepSeekClient.stream_chat lines isOrigin failMidway) sums).1 = _
      rw [show chat_completions_with_stream cid cr dm tm messages isOrigin
          (DeepSeekClient.stream_chat lines isOrigin failMidway) sums
        = composeFrom 0
            ((process_deepseek cid cr dm (DeepSeekClient.stream_chat lines isOrigin failMidway)).1
              ++ (process_openai cid cr tm
                    (process_deepseek cid cr dm
                      (DeepSeekClient.stream_chat lines isOrigin failMidway)).2
                    (DeepSeekClient.mutateMessages isOrigin messages) sums).qitems) from rfl]
      rw [hpubeq]
      rw [process_openai_valid cid cr tm p rest _ sums m hm hrole]
      rw [process_deepseek_items]
      rw [composeFrom_two_stages _ _ (by simp [List.mem_map]) (by simp [List.mem_map])]
      rw [filterMap_qData_chunks, filterMap_qData_chunks]
      simp [List.map_append, List.map_map, List.append_assoc, Function.comp_def]

/-- Witness for c3_increment_framing at a concrete run. -/
theorem c3_increment_framing_witness :
    (chat_completions_from_lines "c" 0 "d" "t" [⟨"user", "q"⟩] true
        [RawLine.payload "r" none] false ["a"]).1
      = ((reasoningPrefixTexts
            (DeepSeekClient.stream_chat [RawLine.payload "r" none] true false).items).map
          (fun c => OutEvent.data (mkReasoningChunk "c" 0 "d" c)))
        ++ (["a"].map (fun c => OutEvent.data (mkContentChunk "c" 0 "t" c)))
        ++ [OutEvent.done]
    ∧ ∀ c ∈ reasoningPrefixTexts
        (DeepSeekClient.stream_chat [RawLine.payload "r" none] true false).items,
        c ≠ "" :=
  c3_increment_framing "c" 0 "d" "t" [⟨"user", "q"⟩] true false
    [RawLine.payload "r" none] ["a"] (by decide) (by decide)

/-- C3 counterexample for the claim as stated: in non-origin mode the
reasoner adapter yields the increment ("content", "hello"), but the
pipeline output contains no data event at all — the increment is dropped
(consumed as the end-of-reasoning signal), contradicting "no increment
yielded by either adapter is dropped". -/
theorem c3_dropped_increment_counterexample :
    ("content", "hello")
        ∈ (DeepSeekClient.stream_chat [RawLine.payload "hello" none] false false).items
    ∧ (chat_completions_from_lines "c" 0 "d" "t" [⟨"user", "q"⟩] false
        [RawLine.payload "hello" none] false []).1 = [OutEvent.done] := by
  decide

end DeepGemini

namespace DeepGemini

/-- C4 (amended): with is_origin_reasoning false the summarizer sees the
caller's original last user message content, preserved with the
instruction block appended.  With is_origin_reasoning true (the default),
the DeepSeek client has already rewritten the shared last message dict
into its chain-of-thought prompt before process_openai reads it, so the
content the summarizer sees embeds the rewritten message, not the
caller's original. -/
theorem c4_prompt_preservation (cid : String) (cr : Nat) (tm trace : String)
    (sums : List String) (pre : List Message) (m : Message)
    (hrole : m.role = "user") (htrace : trace ≠ "") :
    (process_openai cid cr tm [trace]
        (DeepSeekClient.mutateMessages false (pre ++ [m])) sums).adapterMessages
      = some (pre ++ [{ m with content := fixed_content m.content trace }])
    ∧ (process_openai cid cr tm [trace]
        (DeepSeekClient.mutateMessages true (pre ++ [m])) sums).adapterMessages
      = some (pre ++
          [{ m with content := fixed_content (DeepSeekClient.cotPrompt m.content) trace }]) := by
  constructor
  · rw [mutateMessages_concat]
    rw [if_neg (by simp)]
    simp [process_openai, List.getLast?_concat, hrole, htrace, List.dropLast_concat]
  · rw [mutateMessages_concat]
    rw [if_pos ⟨rfl, hrole⟩]
    simp [process_openai, List.getLast?_concat, hrole, htrace, List.dropLast_concat]

/-- Witness for c4_prompt_preservation at a concrete message and trace. -/
theorem c4_prompt_preservation_witness :
    (process_openai "c" 0 "t" ["tr"]
        (DeepSeekClient.mutateMessages false [⟨"user", "hi"⟩]) []).adapterMessages
      = some [⟨"user", fixed_content "hi" "tr"⟩]
    ∧ (process_openai "c" 0 "t" ["tr"]
        (DeepSeekClient.mutateMessages true [⟨"user", "hi"⟩]) []).adapterMessages
      = some [⟨"user", fixed_content (DeepSeekClient.cotPrompt "hi") "tr"⟩] :=
  c4_prompt_preservation "c" 0 "t" "tr" [] [] ⟨"user", "hi"⟩ rfl (by decide)

set_option maxRecDepth 10000 in
/-- C4 counterexample for the claim as stated: with the default
is_origin_reasoning = true, the content the summarizer receives for the
last user message is built from the chain-of-thought-rewritten message,
which differs from the prompt that preserving the caller's original
content would have produced. -/
theorem c4_rewritten_counterexample :
    (process_openai "c" 0 "t" ["tr"]
        (DeepSeekClient.mutateMessages true [⟨"user", "hi"⟩]) []).adapterMessages
      = some [⟨"user", fixed_content (DeepSeekClient.cotPrompt "hi") "tr"⟩]
    ∧ fixed_content (DeepSeekClient.cotPrompt "hi") "tr" ≠ fixed_content "hi" "tr" := by
  decide

/-- C5 (amended): if the message list is empty or its last message's role
is not "user", and the Reasoning-Capture stage publishes a trace (see C2:
guaranteed unless is_origin_reasoning is false and the reasoner completes
with no content increment), then the Summarization stage fails validation
before any call to the summarizer adapter (adapterMessages = none), emits
zero answer chunks while still pushing its end-of-stage sentinel, and the
caller receives exactly the Reasoning-Capture chunks followed by the
terminal marker. -/
theorem c5_validation_failure (cid : String) (cr : Nat) (dm tm : String)
    (messages : List Message) (isOrigin : Bool) (run : StreamRun (String × String))
    (sums : List String)
    (hinvalid : ∀ m, messages.getLast? = some m → m.role ≠ "user")
    (hpub : (process_deepseek cid cr dm run).2 ≠ []) :
    process_openai cid cr tm (process_deepseek cid cr dm run).2
        (DeepSeekClient.mutateMessages isOrigin messages) sums
      = { blocked := false, qitems := [QItem.sentinel], adapterMessages := none }
    ∧ chat_completions_with_stream cid cr dm tm messages isOrigin run sums
      = ((((process_deepseek cid cr dm run).1.filterMap qData).map OutEvent.data)
          ++ [OutEvent.done], true) := by
  have hmut := mutateMessages_invalid isOrigin messages hinvalid
  have hoa : process_openai cid cr tm (process_deepseek cid cr dm run).2
      (DeepSeekClient.mutateMessages isOrigin messages) sums
      = { blocked := false, qitems := [QItem.sentinel], adapterMessages := none } := by
    rw [hmut]
    cases hpubeq : (process_deepseek cid cr dm run).2 with
    | nil => exact absurd hpubeq hpub
    | cons p rest =>
        cases hm : messages.getLast? with
        | none => simp [process_openai, hm]
        | some m => simp [process_openai, hm, hinvalid m hm]
  refine ⟨hoa, ?_⟩
  have hq : (process_openai cid cr tm (process_deepseek cid cr dm run).2
      (DeepSeekClient.mutateMessages isOrigin messages) sums).qitems = [QItem.sentinel] := by
    rw [hoa]
  rw [show chat_completions_with_stream cid cr dm tm messages isOrigin run sums
      = composeFrom 0 ((process_deepseek cid cr dm run).1
          ++ (process_openai cid cr tm (process_deepseek cid cr dm run).2
              (DeepSeekClient.mutateMessages isOrigin messages) sums).qitems) from rfl]
  rw [hq, process_deepseek_items]
  have h2 := composeFrom_two_stages
    ((reasoningPrefixTexts run.items).map (fun c => QItem.chunk (mkReasoningChunk cid cr dm c)))
    [] (by simp [List.mem_map]) (by simp)
  simp only [List.nil_append, List.filterMap_nil, List.append_nil] at h2
  rw [h2]
  simp [List.filterMap_append, qData]

/-- Witness for c5_validation_failure: last message has role "assistant". -/
theorem c5_validation_failure_witness :
    process_openai "c" 0 "t"
        (process_deepseek "c" 0 "d" (⟨[("content", "")], false⟩ : StreamRun (String × String))).2
        (DeepSeekClient.mutateMessages true [⟨"assistant", "x"⟩]) ["a"]
      = { blocked := false, qitems := [QItem.sentinel], adapterMessages := none }
    ∧ chat_completions_with_stream "c" 0 "d" "t" [⟨"assistant", "x"⟩] true
        ⟨[("content", "")], false⟩ ["a"]
      = ((((process_deepseek "c" 0 "d"
            (⟨[("content", "")], false⟩ : StreamRun (String × String))).1.filterMap qData).map
          OutEvent.data) ++ [OutEvent.done], true) :=
  c5_validation_failure "c" 0 "d" "t" [⟨"assistant", "x"⟩] true ⟨[("content", "")], false⟩ ["a"]
    (by intro m hm; injection hm with h2; subst h2; decide) (by decide)

/-- C5 counterexample for the claim as stated: an empty message list with
is_origin_reasoning false and an empty reasoner stream — no trace is
published, the Summarization stage blocks before validation, its sentinel
is never pushed, and the terminal marker never reaches the caller. -/
theorem c5_no_marker_counterexample :
    (chat_completions_from_lines "c" 0 "d" "t" [] false [] false []).2 = false
    ∧ OutEvent.done ∉ (chat_completions_from_lines "c" 0 "d" "t" [] false [] false []).1 := by
  decide

end DeepGemini

namespace DeepGemini

/-- C6: if the reasoner adapter raises at any point of its run, the empty
trace is published (so Summarization is never starved), the Summarization
stage substitutes the fixed placeholder string for the missing reasoning
and proceeds with its own adapter call, and the session still terminates
with the terminal marker instead of hanging or surfacing a hard error. -/
theorem c6_reasoner_failure_degraded (cid : String) (cr : Nat) (dm tm : String)
    (pre : List Message) (m : Message) (isOrigin : Bool) (lines : List RawLine)
    (sums : List String) (hrole : m.role = "user") :
    (process_deepseek cid cr dm (DeepSeekClient.stream_chat lines isOrigin true)).2 = [""]
    ∧ (process_openai cid cr tm [""]
        (DeepSeekClient.mutateMessages isOrigin (pre ++ [m])) sums).adapterMessages
      = some (pre ++
          [{ m with content := (fixed_content
              (if isOrigin then DeepSeekClient.cotPrompt m.content else m.content)
              placeholderTrace) }])
    ∧ (chat_completions_from_lines cid cr dm tm (pre ++ [m]) isOrigin lines true sums).2 = true
    ∧ (chat_completions_from_lines cid cr dm tm
        (pre ++ [m]) isOrigin lines true sums).1.getLast? = some OutEvent.done := by
  have hpub := ds_failed_publishes_empty cid cr dm lines isOrigin
  have hmc := mutateMessages_concat isOrigin pre m
  have hoam : (process_openai cid cr tm [""]
      (DeepSeekClient.mutateMessages isOrigin (pre ++ [m])) sums).adapterMessages
      = some (pre ++
          [{ m with content := (fixed_content
              (if isOrigin then DeepSeekClient.cotPrompt m.content else m.content)
              placeholderTrace) }]) := by
    rw [hmc]
    cases isOrigin
    · rw [if_neg (by simp)]
      simp [process_openai, List.getLast?_concat, hrole, List.dropLast_concat]
    · rw [if_pos ⟨rfl, hrole⟩]
      simp [process_openai, List.getLast?_concat, hrole, List.dropLast_concat]
  have hgr := mutateMessages_getLast_role isOrigin (pre ++ [m])
  rw [List.getLast?_concat] at hgr
  obtain ⟨m2, hm2, hrole2⟩ : ∃ m2,
      (DeepSeekClient.mutateMessages isOrigin (pre ++ [m])).getLast? = some m2
        ∧ m2.role = "user" := by
    obtain ⟨m2, hm2, hr2⟩ := Option.map_eq_some'.mp hgr
    exact ⟨m2, hm2, by rw [hr2, hrole]⟩
  have hpipe : chat_completions_from_lines cid cr dm tm (pre ++ [m]) isOrigin lines true sums
      = ((((((reasoningPrefixTexts (DeepSeekClient.stream_chat lines isOrigin true).items).map
              (fun c => QItem.chunk (mkReasoningChunk cid cr dm c))).filterMap qData)
            ++ ((sums.map fun c => QItem.chunk (mkContentChunk cid cr tm c)).filterMap qData)).map
          OutEvent.data) ++ [OutEvent.done], true) := by
    rw [show chat_completions_from_lines cid cr dm tm (pre ++ [m]) isOrigin lines true sums
        = composeFrom 0
            ((process_deepseek cid cr dm (DeepSeekClient.stream_chat lines isOrigin true)).1
              ++ (process_openai cid cr tm
                    (process_deepseek cid cr dm
                      (DeepSeekClient.stream_chat lines isOrigin true)).2
                    (DeepSeekClient.mutateMessages isOrigin (pre ++ [m])) sums).qitems)
        from rfl]
    rw [hpub]
    rw [process_openai_valid cid cr tm "" [] _ sums m2 hm2 hrole2]
    rw [process_deepseek_items]
    exact composeFrom_two_stages _ _ (by simp [List.mem_map]) (by simp [List.mem_map])
  refine ⟨hpub, hoam, ?_, ?_⟩
  · rw [hpipe]
  · rw [hpipe]
    exact List.getLast?_concat _

/-- Witness for c6_reasoner_failure_degraded: the reasoner raises after
one reasoning line, the summarizer still answers, the stream ends with the
terminal marker. -/
theorem c6_reasoner_failure_degraded_witness :
    (process_deepseek "c" 0 "d"
        (DeepSeekClient.stream_chat [RawLine.payload "r" none] true true)).2 = [""]
    ∧ (process_openai "c" 0 "t" [""]
        (DeepSeekClient.mutateMessages true ([] ++ [(⟨"user", "q"⟩ : Message)])) ["a"]).adapterMessages
      = some ([] ++
          [{ (⟨"user", "q"⟩ : Message) with content := (fixed_content
              (if true then DeepSeekClient.cotPrompt (Message.content ⟨"user", "q"⟩)
               else Message.content ⟨"user", "q"⟩)
              placeholderTrace) }])
    ∧ (chat_completions_from_lines "c" 0 "d" "t" ([] ++ [(⟨"user", "q"⟩ : Message)]) true
        [RawLine.payload "r" none] true ["a"]).2 = true
    ∧ (chat_completions_from_lines "c" 0 "d" "t" ([] ++ [(⟨"user", "q"⟩ : Message)]) true
        [RawLine.payload "r" none] true ["a"]).1.getLast? = some OutEvent.done :=
  c6_reasoner_failure_degraded "c" 0 "d" "t" [] ⟨"user", "q"⟩ true
    [RawLine.payload "r" none] ["a"] rfl

end DeepGemini

namespace DeepGemini

theorem dsTok_chain :
    ∀ (lines : List RawLine) (tc : Nat),
      List.Chain' (· ≤ ·) (lines.filterMap usageOf) →
      (∀ u, (lines.filterMap usageOf).head? = some u → tc ≤ u) →
      List.Chain' (· ≤ ·) (tc :: DeepSeekClient.tokenTrace tc lines) := by
  intro lines
  induction lines with
  | nil =>
      intro tc _ _
      exact List.chain'_singleton tc
  | cons l ls ih =>
      intro tc hch hhead
      cases hu : usageOf l with
      | none =>
          have hfm : (l :: ls).filterMap usageOf = ls.filterMap usageOf := by
            simp [List.filterMap_cons, hu]
          rw [hfm] at hch hhead
          have hrec := ih tc hch hhead
          rw [show DeepSeekClient.tokenTrace tc (l :: ls)
              = tc :: DeepSeekClient.tokenTrace tc ls from by
            simp [DeepSeekClient.tokenTrace, hu]]
          refine List.chain'_cons'.mpr ⟨?_, hrec⟩
          intro v hv
          simp at hv
          omega
      | some u =>
          have hfm : (l :: ls).filterMap usageOf = u :: ls.filterMap usageOf := by
            simp [List.filterMap_cons, hu]
          rw [hfm] at hch hhead
          have htcu : tc ≤ u := hhead u rfl
          have hch2 : List.Chain' (· ≤ ·) (ls.filterMap usageOf) := hch.tail
          have hhead2 : ∀ v, (ls.filterMap usageOf).head? = some v → u ≤ v := by
            intro v hv
            exact (List.chain'_cons'.mp hch).1 v (Option.mem_def.mpr hv)
          have hrec := ih u hch2 hhead2
          rw [show DeepSeekClient.tokenTrace tc (l :: ls)
              = u :: DeepSeekClient.tokenTrace u ls from by
            simp [DeepSeekClient.tokenTrace, hu]]
          refine List.chain'_cons'.mpr ⟨?_, hrec⟩
          intro v hv
          simp at hv
          omega

theorem GeminiClientNew.estimateTrace_chain :
    ∀ (chunks : List (Option String)) (total : Nat),
      List.Chain' (· ≤ ·) (total :: GeminiClientNew.estimateTrace total chunks) := by
  intro chunks
  induction chunks with
  | nil =>
      intro total
      exact List.chain'_singleton total
  | cons c cs ih =>
      intro total
      cases c with
      | none =>
          rw [show GeminiClientNew.estimateTrace total (none :: cs)
              = GeminiClientNew.estimateTrace total cs from rfl]
          exact ih total
      | some t =>
          rw [show GeminiClientNew.estimateTrace total (some t :: cs)
              = (total + (t.length / 3 + 1))
                  :: GeminiClientNew.estimateTrace (total + (t.length / 3 + 1)) cs from rfl]
          refine List.chain'_cons'.mpr ⟨?_, ih _⟩
          intro v hv
          simp at hv
          omega

theorem GeminiClientNew.tokenTrace_chain (chunks : List (Option String)) (u : Nat)
    (h : (GeminiClientNew.estimateTrace 0 chunks).getLastD 0 ≤ u) :
    List.Chain' (· ≤ ·) (GeminiClientNew.tokenTrace chunks (some u)) := by
  unfold GeminiClientNew.tokenTrace
  rw [List.chain'_append]
  refine ⟨(GeminiClientNew.estimateTrace_chain chunks 0).tail, by simp, ?_⟩
  intro x hx y hy
  have hxl : (GeminiClientNew.estimateTrace 0 chunks).getLastD 0 = x := by
    rw [List.getLastD_eq_getLast?, Option.mem_def.mp hx]
    rfl
  have hyu : u = y := by simpa using hy
  subst hyu
  rw [← hxl]
  exact h

/-- C9 (amended): both provider token tallies start at zero at composite
construction.  The DeepSeek tally trace is monotonically non-decreasing
provided the provider-reported usage totals are non-decreasing along the
stream (the code overwrites the counter with each reported total rather
than accumulating, so a smaller reported total makes the tally decrease).
The Gemini streaming estimate is always non-decreasing, and the final
usage override keeps the trace non-decreasing provided the reported total
is at least the last streamed estimate. -/
theorem c9_token_tallies (url : String) (isOrigin : Bool) (lines : List RawLine)
    (chunks : List (Option String)) (u : Nat)
    (h1 : List.Chain' (· ≤ ·) (lines.filterMap usageOf))
    (h2 : (GeminiClientNew.estimateTrace 0 chunks).getLastD 0 ≤ u) :
    (OpenAICompatibleComposite.init url isOrigin).deepseek_tokens = 0
    ∧ (OpenAICompatibleComposite.init url isOrigin).gemini_tokens = 0
    ∧ List.Chain' (· ≤ ·) (DeepSeekClient.tokenTrace 0 lines)
    ∧ List.Chain' (· ≤ ·) (GeminiClientNew.estimateTrace 0 chunks)
    ∧ List.Chain' (· ≤ ·) (GeminiClientNew.tokenTrace chunks (some u)) := by
  refine ⟨rfl, rfl, ?_, (GeminiClientNew.estimateTrace_chain chunks 0).tail,
    GeminiClientNew.tokenTrace_chain chunks u h2⟩
  exact (dsTok_chain lines 0 h1 (fun v _ => Nat.zero_le v)).tail

/-- Witness for c9_token_tallies at a concrete non-decreasing stream. -/
theorem c9_token_tallies_witness :
    (OpenAICompatibleComposite.init "gemini" true).deepseek_tokens = 0
    ∧ (OpenAICompatibleComposite.init "gemini" true).gemini_tokens = 0
    ∧ List.Chain' (· ≤ ·) (DeepSeekClient.tokenTrace 0
        [RawLine.payload "a" (some 1), RawLine.payload "b" (some 2)])
    ∧ List.Chain' (· ≤ ·) (GeminiClientNew.estimateTrace 0 [some "abc"])
    ∧ List.Chain' (· ≤ ·) (GeminiClientNew.tokenTrace [some "abc"] (some 5)) :=
  c9_token_tallies "gemini" true [RawLine.payload "a" (some 1), RawLine.payload "b" (some 2)]
    [some "abc"] 5
    (by simp [List.filterMap_cons, usageOf, List.chain'_cons])
    (by decide)

/-- C9 counterexample for the claim as stated: a provider stream reporting
total_tokens 2 and then 1 makes the DeepSeek tally go from 2 down to 1 —
the tally is not monotonically non-decreasing over the increments
processed. -/
theorem c9_decreasing_counterexample :
    DeepSeekClient.tokenTrace 0 [RawLine.payload "a" (some 2), RawLine.payload "b" (some 1)]
      = [2, 1]
    ∧ ¬ List.Chain' (· ≤ ·) (DeepSeekClient.tokenTrace 0
        [RawLine.payload "a" (some 2), RawLine.payload "b" (some 1)]) := by
  have ht : DeepSeekClient.tokenTrace 0
      [RawLine.payload "a" (some 2), RawLine.payload "b" (some 1)] = [2, 1] := by decide
  refine ⟨ht, ?_⟩
  rw [ht]
  intro hc
  rw [List.chain'_cons] at hc
  exact absurd hc.1 (by omega)

end DeepGemini
